import Mathlib

/-!
Shallow embedding of the FormBuilder ESP32 library (FormBuilder.cpp /
FormBuilder.h) in Lean 4, together with theorems checking the
natural-language specification against the code.

Strings are modelled as `List Char` (Arduino `String` is a byte string;
every character produced here has code point < 256).
-/

abbrev Str := List Char

/-- C `isspace`: space, tab, newline, vertical tab, form feed, carriage
return.  Arduino `String::trim` removes exactly these from both ends. -/
def isWS (c : Char) : Bool := c.toNat = 32 || (9 ≤ c.toNat && c.toNat ≤ 13)

/-- Arduino `String::trim`: drop `isspace` characters from both ends. -/
def trimStr (s : Str) : Str :=
  ((s.dropWhile isWS).reverse.dropWhile isWS).reverse

/-- Value of one hex digit character, as `strtol` base 16 accepts them
(0-9, a-f, A-F); `none` for any other character. -/
def hexDigitVal (c : Char) : Option Nat :=
  if '0' ≤ c ∧ c ≤ '9' then some (c.toNat - 48)
  else if 'a' ≤ c ∧ c ≤ 'f' then some (c.toNat - 87)
  else if 'A' ≤ c ∧ c ≤ 'F' then some (c.toNat - 55)
  else none

def isHexDigitB (c : Char) : Bool := (hexDigitVal c).isSome

/-- Value of `strtol(temp, NULL, 16)` where `temp` is the 4-byte buffer
`"0x" ++ [c1, c2]` built by `FormBuilder::urlDecode`: `strtol` consumes
the `0x` prefix only when a hex digit follows, so an invalid first digit
yields 0 (only the leading `0` is parsed) and an invalid second digit
yields the value of the first digit alone. -/
def hexPairVal (c1 c2 : Char) : Nat :=
  match hexDigitVal c1 with
  | none => 0
  | some v1 =>
    match hexDigitVal c2 with
    | none => v1
    | some v2 => 16 * v1 + v2

/-- `FormBuilder::urlDecode`: `+` becomes space; `%` followed by at least
two more characters (the C++ guard `i + 2 < len`) consumes the next two
characters as a hex pair and emits that byte; any other character (and a
`%` with fewer than two characters after it) is copied literally. -/
def urlDecode : Str → Str
  | [] => []
  | '+' :: rest => ' ' :: urlDecode rest
  | '%' :: c1 :: c2 :: rest => Char.ofNat (hexPairVal c1 c2) :: urlDecode rest
  | c :: rest => c :: urlDecode rest

/-- One decimal digit character. -/
def digitChar (n : Nat) : Char := Char.ofNat (48 + n)

/-- Decimal representation of a natural number, as `itoa` base 10
produces it for nonnegative input. -/
def natDecimal (n : Nat) : Str :=
  if n < 10 then [digitChar n] else natDecimal (n / 10) ++ [digitChar (n % 10)]
termination_by n
decreasing_by exact Nat.div_lt_self (by omega) (by norm_num)

/-- Arduino `String(int)`: signed decimal representation. -/
def intDecimal (i : Int) : Str :=
  if i < 0 then '-' :: natDecimal (-i).toNat else natDecimal i.toNat

/-- `strtol(s, NULL, 16)` followed by the `(int)` cast in
`FormBuilder::getParameters`: skip leading whitespace, optional sign,
optional `0x`/`0X` prefix, then fold the leading run of hex digits;
on 32-bit targets `long` and `int` coincide and overflow clamps to
`LONG_MAX`/`LONG_MIN`. -/
def strtolHex (s : Str) : Int :=
  let t := s.dropWhile isWS
  let signed : Bool × Str :=
    match t with
    | '-' :: r => (true, r)
    | '+' :: r => (false, r)
    | r => (false, r)
  let t2 : Str :=
    match signed.2 with
    | '0' :: c :: r => if c = 'x' ∨ c = 'X' then r else signed.2
    | r => r
  let mag : Nat :=
    (t2.takeWhile isHexDigitB).foldl
      (fun a c => 16 * a + ((hexDigitVal c).getD 0)) 0
  if signed.1 then (if 2 ^ 31 ≤ mag then -(2 ^ 31) else -(mag : Int))
  else (if 2 ^ 31 ≤ mag then 2 ^ 31 - 1 else (mag : Int))

/-- The value normalization pipeline of `FormBuilder::getParameters`
before the hex-color step: percent-decode, trim, then map the sentinel
whole-string values `%20` and `(None)` to the empty string. -/
def normValue (raw : Str) : Str :=
  let v1 := trimStr (urlDecode raw)
  let v2 := if v1 = ("%20").toList then [] else v1
  if v2 = ("(None)").toList then [] else v2

/-- The full per-parameter value pipeline of `FormBuilder::getParameters`:
normalization followed by the hex-color conversion (a value starting with
`#` is replaced by the decimal form of `strtol` base 16 of the rest). -/
def decodeValue (raw : Str) : Str :=
  match normValue raw with
  | '#' :: r => intDecimal (strtolHex r)
  | _ => normValue raw

/-- Standard percent-encoding of one byte, written from the claim's
words: `%` followed by the two uppercase hex digits of the byte. -/
def percentEncode (b : Nat) : Str :=
  ['%', Char.ofNat (if b / 16 < 10 then 48 + b / 16 else 55 + b / 16),
        Char.ofNat (if b % 16 < 10 then 48 + b % 16 else 55 + b % 16)]

/-! ## Field registry and page render (htmlStart, add*, render*) -/

/-- `START_FIELD_TAG` from FormBuilder.h. -/
def START_FIELD_TAG : Nat := 10

/-- `MAX_FIELD_OPTIONS` from FormBuilder.h. -/
def MAX_FIELD_OPTIONS : Nat := 20

/-- One call made by the form-definition callback between `htmlStart`
and `htmlEnd`. -/
inductive FieldDecl where
  | subheadingF (text : Str)
  | textF (prompt dflt : Str)
  | dropDownF (prompt options : Str) (defaultIndex : Nat) (returnText : Bool)
  | dropDownRangeF (prompt : Str) (minV maxV dfltV : Int)
  | colorPickerF (prompt : Str) (color : Nat)

/-- Whether the declaration reaches the `_fieldTag++; _numberFields++`
lines of its render function: subheadings never do, and every render
function returns early when the prompt is empty. -/
def consumesTag : FieldDecl → Bool
  | .subheadingF _ => false
  | .textF p _ => p ≠ []
  | .dropDownF p _ _ _ => p ≠ []
  | .dropDownRangeF p _ _ _ => p ≠ []
  | .colorPickerF p _ => p ≠ []

/-- Render state: `(_fieldTag, _numberFields)`. -/
abbrev RenderState := Nat × Nat

/-- Effect of one `add*` call on the render state, also yielding the tag
assigned to the field when one is consumed. -/
def stepDecl (st : RenderState) (d : FieldDecl) : RenderState × Option Nat :=
  if consumesTag d then ((st.1 + 1, st.2 + 1), some (st.1 + 1)) else (st, none)

/-- Run a list of declarations from a given state, collecting the
assigned tags in order. -/
def runDecls (st : RenderState) : List FieldDecl → RenderState × List Nat
  | [] => (st, [])
  | d :: ds =>
    let (st1, tag) := stepDecl st d
    let (st2, tags) := runDecls st1 ds
    (st2, (tag.toList) ++ tags)

/-- One full page render: `htmlStart` resets `_fieldTag` to
`START_FIELD_TAG` and `_numberFields` to 0, then the form-definition
callback issues the declarations. -/
def renderPage (decls : List FieldDecl) : RenderState × List Nat :=
  runDecls (START_FIELD_TAG, 0) decls

/-- The tags assigned during one page render, in emission order. -/
def emittedTags (decls : List FieldDecl) : List Nat := (renderPage decls).2

/-! ## Dropdown option parsing and rendering (addDropDown, renderDropdown) -/

/-- First index of a character in a string, Arduino `String::indexOf`. -/
def findCharIdx (c : Char) : Str → Option Nat
  | [] => none
  | a :: t => if a = c then some 0 else (findCharIdx c t).map (· + 1)

/-- Split on every comma, keeping empty chunks, as the
`lastComma`/`nextComma` loop of `addDropDown` produces them. -/
def splitChunks (s : Str) : List Str :=
  match h : findCharIdx ',' s with
  | none => [s]
  | some i => s.take i :: splitChunks (s.drop (i + 1))
termination_by s.length
decreasing_by
  simp only [List.length_drop]
  have : s ≠ [] := by
    intro he
    rw [he] at h
    simp [findCharIdx] at h
  have : 0 < s.length := List.length_pos.mpr this
  omega

/-- The meaningful prefix of `_settings.fieldOptions` after the parsing
loop in `addDropDown`: the first `MAX_FIELD_OPTIONS` comma chunks, each
trimmed (slots beyond it keep the empty string from `clearSettings`). -/
def storedOptions (options : Str) : List Str :=
  ((splitChunks options).map trimStr).take MAX_FIELD_OPTIONS

/-- The options actually rendered by `renderDropdown`'s enumerated
branch, which breaks at the first empty slot. -/
def renderedOptions (options : Str) : List Str :=
  (storedOptions options).takeWhile (fun o => o ≠ [])

/-- The `<option>` rows emitted by `renderDropdown`'s enumerated branch:
(value attribute, option text, selected flag).  The value is the option
text when `returnPrompts` is set and the ordinal otherwise; the selected
comparison is against `_settings.numDefault`, a `byte`, so the default
index is truncated mod 256 on storage. -/
def dropdownRows (options : Str) (defaultIndex : Nat) (returnText : Bool) :
    List (Str × Str × Bool) :=
  (renderedOptions options).enum.map
    (fun p => (if returnText then p.2 else natDecimal p.1, p.2,
               decide (p.1 = defaultIndex % 256)))

/-! ## Color picker default formatting (addColorPicker) -/

def toUpperChar (c : Char) : Char :=
  if 'a' ≤ c ∧ c ≤ 'z' then Char.ofNat (c.toNat - 32) else c

/-- One lowercase hex digit character, as `itoa`/`utoa` base 16 emit. -/
def hexDigitLower (n : Nat) : Char :=
  if n < 10 then Char.ofNat (48 + n) else Char.ofNat (87 + n)

/-- `String(n, HEX)` for a nonnegative int: lowercase hex, no padding. -/
def hexRep (n : Nat) : Str :=
  if n < 16 then [hexDigitLower n] else hexRep (n / 16) ++ [hexDigitLower (n % 16)]
termination_by n
decreasing_by exact Nat.div_lt_self (by omega) (by norm_num)

/-- The default value string built by `addColorPicker`: `#`, one `0` for
each magnitude threshold the color lies below, the hex conversion, and a
final `toUpperCase` over the whole string. -/
def colorHexStr (c : Nat) : Str :=
  let pads : Str :=
    (if c < 0x100000 then ['0'] else []) ++
    (if c < 0x10000 then ['0'] else []) ++
    (if c < 0x1000 then ['0'] else []) ++
    (if c < 0x100 then ['0'] else []) ++
    (if c < 0x10 then ['0'] else [])
  ('#' :: (pads ++ hexRep c)).map toUpperChar

/-! ## Query decoding and submission dispatch (getParameters) -/

/-- The multi-character chunk separator `__SEP__`. -/
def sepStr : Str := ("__SEP__").toList

/-- First index at or after which `pat` occurs in `s`, Arduino
`String::indexOf(String)`. -/
def findSub (pat : Str) : Str → Option Nat
  | [] => if pat.isPrefixOf ([] : Str) then some 0 else none
  | s@(_ :: t) =>
    if pat.isPrefixOf s then some 0 else (findSub pat t).map (· + 1)

/-- Cut the next parameter chunk off the unread suffix of the query
string: the part before the next separator (or the whole remainder when
none is found, `nextSep = queryString.length()`), and the remainder
after skipping the separator (`pos = nextSep + sepLen`). -/
def chunkSplit (q : Str) : Str × Str :=
  let j := match findSub sepStr q with
    | none => q.length
    | some idx => idx
  (q.take j, q.drop (j + sepStr.length))

lemma chunkSplit_snd_lt (q : Str) (hq : q ≠ []) :
    (chunkSplit q).2.length < q.length := by
  have h0 : 0 < q.length := List.length_pos.mpr hq
  have h7 : sepStr.length = 7 := rfl
  simp only [chunkSplit, List.length_drop, h7]
  omega

/-- The parameter loop of `getParameters`, acting on the still-unread
suffix `q` of the query string with the current `fieldIndex` `i`: while
characters remain and `i` has not passed `_numberFields`, cut the chunk
before the next separator, advance past the separator, skip chunks
without `=`, and otherwise emit `(i, decoded value after the first =)`
and increment `i`. -/
def processQueryAux (n : Nat) (q : Str) (i : Nat) : List (Nat × Str) :=
  if hq : q = [] then []
  else if n < i then []
  else
    match findCharIdx '=' (chunkSplit q).1 with
    | none => processQueryAux n (chunkSplit q).2 i
    | some e =>
      (i, decodeValue ((chunkSplit q).1.drop (e + 1))) ::
        processQueryAux n (chunkSplit q).2 (i + 1)
termination_by q.length
decreasing_by all_goals exact chunkSplit_snd_lt q hq

/-- The callback invocations produced from one query string when the
last render recorded `n` fields: `fieldIndex` starts at 1. -/
def processQuery (n : Nat) (q : Str) : List (Nat × Str) := processQueryAux n q 1

/-! ## Request line scanner (handleClient / getParameters outer loop) -/

/-- The recognized submission marker `GET /ajax_inputs`. -/
def marker : Str := ("GET /ajax_inputs").toList

/-- Observable outcome of one `getParameters` call. -/
structure Outcome where
  invocations : List (Nat × Str)
  finalOrdinal : Nat
  responseSent : Bool
  closedConn : Bool
  restarted : Bool
  renderedPage : Bool
deriving DecidableEq, Repr

/-- Outcome when the scan ends with no action: connection data exhausted
before the blank line, or a malformed submission line (`break` with
`handledRequest` set). -/
def silentOutcome : Outcome :=
  { invocations := [], finalOrdinal := 1, responseSent := false,
    closedConn := false, restarted := false, renderedPage := false }

/-- Outcome of the non-submission path: blank line ends the headers, the
page is rendered and the connection closed. -/
def renderOutcome : Outcome :=
  { invocations := [], finalOrdinal := 1, responseSent := false,
    closedConn := true, restarted := false, renderedPage := true }

/-- First index of `c` in `s` at or after position `from0`, Arduino
`String::indexOf(char, from)`. -/
def findCharIdxFrom (c : Char) (s : Str) (from0 : Nat) : Option Nat :=
  (findCharIdx c (s.drop from0)).map (· + from0)

/-- Handling of one recognized (trimmed) submission request line: locate
`?` and the following space; on failure `break` silently; otherwise run
the parameter loop on the substring between them, send the plain-text
success response, stop the client and restart.  The callback presence
flag only guards the invocation itself: the loop, the `fieldIndex`
counter and the wire behavior are unaffected. -/
def handleSubmission (n : Nat) (hasCb : Bool) (line : Str) : Outcome :=
  match findCharIdx '?' line with
  | none => silentOutcome
  | some qs =>
    match findCharIdxFrom ' ' line qs with
    | none => silentOutcome
    | some qe =>
      let q := (line.drop (qs + 1)).take (qe - (qs + 1))
      let invs := processQuery n q
      { invocations := if hasCb then invs else [],
        finalOrdinal := 1 + invs.length,
        responseSent := true, closedConn := true, restarted := true,
        renderedPage := false }

/-- The line-reading loop of `getParameters`: each available line is
trimmed; a blank line ends the headers and triggers a page render; a
line starting with the submission marker is handled as a submission
(malformed ones break silently); any other line is skipped. -/
def scanLines (n : Nat) (hasCb : Bool) : List Str → Outcome
  | [] => silentOutcome
  | l :: rest =>
    let t := trimStr l
    if t = [] then renderOutcome
    else if marker.isPrefixOf t then handleSubmission n hasCb t
    else scanLines n hasCb rest

/-- Whether a (trimmed) request line contains `?` and a later space, the
well-formedness test of the submission path. -/
def wellFormedReq (t : Str) : Bool :=
  match findCharIdx '?' t with
  | none => false
  | some qs => (findCharIdxFrom ' ' t qs).isSome

/-- An uppercase hex digit character (0-9 or A-F), the alphabet the
claim asserts for rendered color defaults. -/
def isUpperHexDigit (c : Char) : Bool :=
  ('0' ≤ c && c ≤ '9') || ('A' ≤ c && c ≤ 'F')

set_option maxRecDepth 2048

/-! ## Helper lemmas -/

lemma runDecls_closed (ds : List FieldDecl) : ∀ t c : Nat,
    (runDecls (t, c) ds).2 = List.range' (t + 1) (runDecls (t, c) ds).2.length
    ∧ (runDecls (t, c) ds).1.1 = t + (runDecls (t, c) ds).2.length
    ∧ (runDecls (t, c) ds).1.2 = c + (runDecls (t, c) ds).2.length := by
  induction ds with
  | nil => intro t c; simp [runDecls]
  | cons d ds ih =>
    intro t c
    by_cases hc : consumesTag d
    · obtain ⟨h1, h2, h3⟩ := ih (t + 1) (c + 1)
      simp only [runDecls, stepDecl, hc, if_pos, Option.toList_some, List.cons_append,
        List.nil_append, List.length_cons]
      refine ⟨?_, by omega, by omega⟩
      rw [List.range'_succ, h1, List.length_range']
    · obtain ⟨h1, h2, h3⟩ := ih t c
      simp only [runDecls, stepDecl, hc, if_neg, Option.toList_none, List.nil_append]
      exact ⟨h1, h2, h3⟩

lemma runDecls_subheading (txt : Str) (post : List FieldDecl) :
    ∀ pre : List FieldDecl, ∀ st : RenderState,
      runDecls st (pre ++ FieldDecl.subheadingF txt :: post) =
        runDecls st (pre ++ post) := by
  intro pre
  induction pre with
  | nil =>
    intro st
    simp [runDecls, stepDecl, consumesTag]
  | cons d pre ih =>
    intro st
    simp only [List.cons_append, runDecls, List.append_eq]
    rw [ih]

/-! ## Claim theorems -/

/-- C1: every page render starts by resetting the tag counter to
BASE = 10 and the field count to 0, and the Nth tag-consuming field
(1-indexed, declaration order) receives tag BASE + N — the emitted tags
are exactly `[11, 12, ...]`, strictly ascending with no gaps and no
reuse, the final field count equals the number of tag-consuming fields,
and inserting a subheading anywhere changes neither the tags nor the
field count. -/
theorem C1_tag_allocation :
    ∀ decls : List FieldDecl,
      emittedTags decls =
        List.range' (START_FIELD_TAG + 1) (emittedTags decls).length
      ∧ (renderPage decls).1.2 = (emittedTags decls).length
      ∧ (renderPage decls).1.1 = START_FIELD_TAG + (emittedTags decls).length
      ∧ (∀ txt pre post,
          emittedTags (pre ++ FieldDecl.subheadingF txt :: post) =
            emittedTags (pre ++ post)
          ∧ (renderPage (pre ++ FieldDecl.subheadingF txt :: post)).1.2 =
              (renderPage (pre ++ post)).1.2) := by
  intro decls
  obtain ⟨h1, h2, h3⟩ := runDecls_closed decls START_FIELD_TAG 0
  refine ⟨h1, by simpa using h3, h2, ?_⟩
  intro txt pre post
  unfold emittedTags renderPage
  rw [runDecls_subheading]
  exact ⟨rfl, rfl⟩

lemma processQueryAux_ordinals :
    ∀ L q i n, q.length ≤ L →
      (processQueryAux n q i).map Prod.fst =
        List.range' i (processQueryAux n q i).length
      ∧ i + (processQueryAux n q i).length ≤ max (n + 1) i := by
  intro L
  induction L with
  | zero =>
    intro q i n hL
    have hq : q = [] := by
      cases q with
      | nil => rfl
      | cons a t => simp at hL
    subst hq
    rw [processQueryAux]
    refine ⟨by simp, by simp⟩
  | succ L ih =>
    intro q i n hL
    rw [processQueryAux]
    split
    next hq => exact ⟨by simp, by simp only [List.length_nil]; omega⟩
    next hq =>
      split
      next hni => exact ⟨by simp, by simp only [List.length_nil]; omega⟩
      next hni =>
        have hrest : (chunkSplit q).2.length ≤ L := by
          have := chunkSplit_snd_lt q hq
          omega
        split
        next hfe => exact ih _ i n hrest
        next e hfe =>
          obtain ⟨ha, hb⟩ := ih (chunkSplit q).2 (i + 1) n hrest
          refine ⟨?_, ?_⟩
          · simp only [List.map_cons, List.length_cons]
            rw [List.range'_succ, ha]
          · simp only [List.length_cons]
            omega

/-- C2: the dispatcher walks the query string's chunks in order with a
one-based ordinal counter that increments only for chunks containing
`=`; the emitted ordinals are exactly 1, 2, ..., k in order (so the
callback is invoked once per such chunk, in chunk order), at most the
recorded field count many invocations happen, 3 well-formed chunks with
field count 3 (or more) yield exactly the ordinals 1, 2, 3, a chunk
without `=` is skipped and consumes no ordinal, and chunks beyond the
field count are ignored. -/
theorem C2_dispatch_ordinals :
    (∀ q n, (processQuery n q).map Prod.fst =
        List.range' 1 (processQuery n q).length
      ∧ (processQuery n q).length ≤ n)
    ∧ processQuery 3 (("x11=a__SEP__x12=b__SEP__x13=c").toList) =
        [(1, ("a").toList), (2, ("b").toList), (3, ("c").toList)]
    ∧ processQuery 5 (("x11=a__SEP__x12=b__SEP__x13=c").toList) =
        [(1, ("a").toList), (2, ("b").toList), (3, ("c").toList)]
    ∧ processQuery 5 (("x11=a__SEP__junk__SEP__x12=b").toList) =
        [(1, ("a").toList), (2, ("b").toList)]
    ∧ processQuery 3 (("x11=a__SEP__x12=b__SEP__x13=c__SEP__x14=d").toList) =
        [(1, ("a").toList), (2, ("b").toList), (3, ("c").toList)] := by
  refine ⟨?_, ?_, ?_, ?_, ?_⟩
  · intro q n
    obtain ⟨h1, h2⟩ := processQueryAux_ordinals q.length q 1 n (le_refl _)
    unfold processQuery
    exact ⟨h1, by omega⟩
  all_goals
    simp +decide [processQuery, processQueryAux, chunkSplit, sepStr, findSub,
      findCharIdx, decodeValue, normValue, trimStr, isWS, urlDecode]

/-- C3 counterexample: the request line `GET /ajax_inputs HTTP/1.1`
begins with the recognized submission marker, yet processing it neither
restarts the device nor closes the connection nor sends any response —
the missing `?` makes `getParameters` break out silently. -/
theorem C3_counterexample :
    marker.isPrefixOf (trimStr (("GET /ajax_inputs HTTP/1.1").toList)) = true
    ∧ (scanLines 0 true [("GET /ajax_inputs HTTP/1.1").toList]).restarted = false
    ∧ (scanLines 0 true [("GET /ajax_inputs HTTP/1.1").toList]).closedConn = false
    ∧ (scanLines 0 true [("GET /ajax_inputs HTTP/1.1").toList]).responseSent
        = false := by
  refine ⟨by decide, ?_, ?_, ?_⟩ <;> decide

/-- C3 (amended): every request whose request line begins with the
recognized `GET /ajax_inputs` marker AND contains the `?` delimiter with
a later terminating space sends the success response, terminates the
connection and triggers the device restart, regardless of how many of
its parameters (zero or more) were valid. -/
theorem C3_submission_always_restarts :
    ∀ (l : Str) (rest : List Str) (n : Nat) (cb : Bool),
      marker.isPrefixOf (trimStr l) = true →
      wellFormedReq (trimStr l) = true →
      (scanLines n cb (l :: rest)).restarted = true
      ∧ (scanLines n cb (l :: rest)).closedConn = true
      ∧ (scanLines n cb (l :: rest)).responseSent = true := by
  intro l rest n cb hm hwf
  have ht : ¬ trimStr l = [] := by
    intro he
    rw [he] at hm
    simp [marker, List.isPrefixOf] at hm
  unfold scanLines
  simp only [ht, if_false, hm, if_true]
  unfold wellFormedReq at hwf
  unfold handleSubmission
  split
  next hqs => rw [hqs] at hwf; simp at hwf
  next qs1 hqs =>
    rw [hqs] at hwf
    simp only [] at hwf
    split
    next hqe => rw [hqe] at hwf; simp at hwf
    next qe hqe => exact ⟨rfl, rfl, rfl⟩

/-- Witness for C3: a concrete well-formed submission request restarts,
closes and responds. -/
theorem C3_submission_always_restarts_witness :
    (scanLines 0 true [("GET /ajax_inputs?x11=a HTTP/1.1").toList]).restarted = true
    ∧ (scanLines 0 true
        [("GET /ajax_inputs?x11=a HTTP/1.1").toList]).closedConn = true
    ∧ (scanLines 0 true
        [("GET /ajax_inputs?x11=a HTTP/1.1").toList]).responseSent = true :=
  C3_submission_always_restarts (("GET /ajax_inputs?x11=a HTTP/1.1").toList)
    [] 0 true (by decide) (by decide)

/-- C4: percent-decoding is a left inverse of standard percent-encoding
for every byte value 0x00 through 0xFF, `+` decodes to a space, and a
`%` followed by fewer than two characters is not treated as an escape:
the characters are copied literally instead of reading past the end. -/
theorem C4_decode_left_inverse :
    (∀ b : Nat, b < 256 → urlDecode (percentEncode b) = [Char.ofNat b])
    ∧ urlDecode ['+'] = [' ']
    ∧ urlDecode ['%'] = ['%']
    ∧ (∀ c : Char, isHexDigitB c = true → urlDecode ['%', c] = ['%', c]) := by
  have hall : ∀ b ∈ List.range 256,
      urlDecode (percentEncode b) = [Char.ofNat b] := by decide
  refine ⟨?_, by decide, by decide, ?_⟩
  · intro b hb
    exact hall b (List.mem_range.mpr hb)
  · intro c hc
    have hplus : ¬ c = '+' := by
      intro he
      rw [he] at hc
      simp [isHexDigitB, hexDigitVal] at hc
    show '%' :: urlDecode [c] = ['%', c]
    simp [urlDecode, hplus]

/-- Witness for C4: byte 0x41 round-trips, and a lone trailing hex digit
after `%` is copied literally. -/
theorem C4_decode_left_inverse_witness :
    urlDecode (percentEncode 65) = [Char.ofNat 65]
    ∧ urlDecode ['%', 'A'] = ['%', 'A'] :=
  ⟨C4_decode_left_inverse.1 65 (by decide),
   C4_decode_left_inverse.2.2.2 'A' (by decide)⟩

/-- C5: after percent-decoding and trimming, a value equal to the whole
string `%20` becomes empty and a value equal to the whole string
`(None)` becomes empty, while values merely containing those texts are
untouched: input `%20` maps to empty, `(None)` maps to empty, and
`a%20b` maps to `a b`. -/
theorem C5_sentinel_normalization :
    (∀ raw : Str, trimStr (urlDecode raw) = ("%20").toList →
        decodeValue raw = [])
    ∧ (∀ raw : Str, trimStr (urlDecode raw) = ("(None)").toList →
        decodeValue raw = [])
    ∧ decodeValue (("%20").toList) = []
    ∧ decodeValue (("(None)").toList) = []
    ∧ decodeValue (("a%20b").toList) = ("a b").toList := by
  refine ⟨?_, ?_, by decide, by decide, by decide⟩
  · intro raw h
    have hn : normValue raw = [] := by
      unfold normValue
      rw [h]
      decide
    unfold decodeValue
    rw [hn]
  · intro raw h
    have hn : normValue raw = [] := by
      unfold normValue
      rw [h]
      decide
    unfold decodeValue
    rw [hn]

/-- Witness for C5: the inputs `%2520` and `%28None%29` percent-decode
and trim to the literal sentinel texts `%20` and `(None)`, and the full
pipeline maps both to the empty string. -/
theorem C5_sentinel_normalization_witness :
    decodeValue (("%2520").toList) = []
    ∧ decodeValue (("%28None%29").toList) = [] :=
  ⟨C5_sentinel_normalization.1 (("%2520").toList) (by decide),
   C5_sentinel_normalization.2.1 (("%28None%29").toList) (by decide)⟩

lemma digitChar_isDigit : ∀ d ∈ List.range 10, (digitChar d).isDigit = true := by
  decide

lemma natDecimal_digits : ∀ n : Nat, ∀ ch ∈ natDecimal n, ch.isDigit = true := by
  intro n
  induction n using Nat.strong_induction_on with
  | _ n ih =>
    intro ch hch
    rw [natDecimal] at hch
    by_cases h : n < 10
    · rw [if_pos h] at hch
      simp only [List.mem_singleton] at hch
      subst hch
      exact digitChar_isDigit n (List.mem_range.mpr h)
    · rw [if_neg h] at hch
      rcases List.mem_append.mp hch with h1 | h1
      · exact ih (n / 10) (Nat.div_lt_self (by omega) (by norm_num)) ch h1
      · simp only [List.mem_singleton] at h1
        subst h1
        exact digitChar_isDigit (n % 10) (List.mem_range.mpr (by omega))

lemma intDecimal_chars (i : Int) : ∀ ch ∈ intDecimal i, ch.isDigit = true ∨ ch = '-' := by
  intro ch hch
  unfold intDecimal at hch
  by_cases h : i < 0
  · rw [if_pos h] at hch
    rcases List.mem_cons.mp hch with h1 | h1
    · right; exact h1
    · left; exact natDecimal_digits _ ch h1
  · rw [if_neg h] at hch
    left
    exact natDecimal_digits _ ch hch

/-- C6: whenever the trimmed, normalized value starts with `#`, the rest
is parsed as a hexadecimal integer (`strtol` base 16) and the value
delivered to the callback is that integer's decimal string — which
contains only decimal digits (and possibly a sign), never hex letters;
in particular `#FF0000` is delivered as `16711680`. -/
theorem C6_hex_color_decimal :
    (∀ raw r : Str, normValue raw = '#' :: r →
        decodeValue raw = intDecimal (strtolHex r)
        ∧ ∀ ch ∈ decodeValue raw, ch.isDigit = true ∨ ch = '-')
    ∧ decodeValue (("#FF0000").toList) = ("16711680").toList := by
  have key : ∀ raw r : Str, normValue raw = '#' :: r →
      decodeValue raw = intDecimal (strtolHex r) := by
    intro raw r h
    unfold decodeValue
    rw [h]
    rfl
  refine ⟨?_, ?_⟩
  · intro raw r h
    refine ⟨key raw r h, ?_⟩
    rw [key raw r h]
    exact intDecimal_chars _
  · rw [key (("#FF0000").toList) (("FF0000").toList) (by decide)]
    have h1 : strtolHex (("FF0000").toList) = 16711680 := by decide
    rw [h1]
    simp [intDecimal, natDecimal, digitChar]

/-- Witness for C6: the concrete value `#FF0000` satisfies the
hypothesis and is delivered as the decimal string of 0xFF0000. -/
theorem C6_hex_color_decimal_witness :
    decodeValue (("#FF0000").toList) =
      intDecimal (strtolHex (("FF0000").toList))
    ∧ ∀ ch ∈ decodeValue (("#FF0000").toList), ch.isDigit = true ∨ ch = '-' :=
  C6_hex_color_decimal.1 (("#FF0000").toList) (("FF0000").toList) (by decide)

/-- C7: a submission request line in which the `?` delimiter or the
terminating space is absent aborts silently: the whole outcome is the
silent one — no response bytes (neither the success response nor a page
render), no callback invocation, no close, no restart. -/
theorem C7_malformed_submission_silent :
    ∀ (l : Str) (rest : List Str) (n : Nat) (cb : Bool),
      marker.isPrefixOf (trimStr l) = true →
      wellFormedReq (trimStr l) = false →
      scanLines n cb (l :: rest) = silentOutcome := by
  intro l rest n cb hm hwf
  have ht : ¬ trimStr l = [] := by
    intro he
    rw [he] at hm
    simp [marker, List.isPrefixOf] at hm
  unfold scanLines
  simp only [ht, if_false, hm, if_true]
  unfold wellFormedReq at hwf
  unfold handleSubmission
  split
  next hqs => rfl
  next qs1 hqs =>
    rw [hqs] at hwf
    simp only [] at hwf
    split
    next hqe => rfl
    next qe hqe => rw [hqe] at hwf; simp at hwf

/-- Witness for C7: the concrete marker-prefixed request line with no
`?` produces exactly the silent outcome. -/
theorem C7_malformed_submission_silent_witness :
    scanLines 7 true [("GET /ajax_inputs HTTP/1.0").toList] = silentOutcome :=
  C7_malformed_submission_silent (("GET /ajax_inputs HTTP/1.0").toList)
    [] 7 true (by decide) (by decide)

lemma hexRep_len_pos (n : Nat) : 0 < (hexRep n).length := by
  rw [hexRep]
  split
  · simp
  · simp

lemma hexRep_len_le : ∀ k : Nat, 0 < k → ∀ n : Nat, n < 16 ^ k →
    (hexRep n).length ≤ k := by
  intro k
  induction k with
  | zero => omega
  | succ k ih =>
    intro _ n hn
    rw [hexRep]
    by_cases h : n < 16
    · rw [if_pos h]
      simp
    · rw [if_neg h]
      simp only [List.length_append, List.length_singleton]
      have hk : 0 < k := by
        rcases Nat.eq_zero_or_pos k with h0 | h0
        · subst h0
          rw [pow_one] at hn
          omega
        · exact h0
      have hdiv : n / 16 < 16 ^ k := by
        rw [Nat.div_lt_iff_lt_mul (by norm_num)]
        calc n < 16 ^ (k + 1) := hn
        _ = 16 ^ k * 16 := by ring
      have := ih hk (n / 16) hdiv
      omega

lemma hexRep_len_ge : ∀ k n : Nat, 16 ^ k ≤ n → k + 1 ≤ (hexRep n).length := by
  intro k
  induction k with
  | zero =>
    intro n _
    exact hexRep_len_pos n
  | succ k ih =>
    intro n hn
    have h16 : ¬ n < 16 := by
      have : (16 : Nat) ≤ 16 ^ (k + 1) := by
        calc (16 : Nat) = 16 ^ 1 := (pow_one 16).symm
        _ ≤ 16 ^ (k + 1) := Nat.pow_le_pow_right (by norm_num) (by omega)
      omega
    rw [hexRep, if_neg h16]
    simp only [List.length_append, List.length_singleton]
    have hdiv : 16 ^ k ≤ n / 16 := by
      rw [Nat.le_div_iff_mul_le (by norm_num)]
      calc 16 ^ k * 16 = 16 ^ (k + 1) := by ring
      _ ≤ n := hn
    have := ih (n / 16) hdiv
    omega

lemma hexRep_length_interval (k c : Nat) (h1 : 16 ^ k ≤ c) (h2 : c < 16 ^ (k + 1)) :
    (hexRep c).length = k + 1 :=
  le_antisymm (hexRep_len_le (k + 1) (by omega) c h2) (hexRep_len_ge k c h1)

lemma hexRep_chars : ∀ n : Nat, ∀ ch ∈ hexRep n, ∃ d, d < 16 ∧ ch = hexDigitLower d := by
  intro n
  induction n using Nat.strong_induction_on with
  | _ n ih =>
    intro ch hch
    rw [hexRep] at hch
    by_cases h : n < 16
    · rw [if_pos h] at hch
      simp only [List.mem_singleton] at hch
      exact ⟨n, h, hch⟩
    · rw [if_neg h] at hch
      rcases List.mem_append.mp hch with h1 | h1
      · exact ih (n / 16) (Nat.div_lt_self (by omega) (by norm_num)) ch h1
      · simp only [List.mem_singleton] at h1
        exact ⟨n % 16, by omega, h1⟩

lemma upperHex_of_lower :
    ∀ d ∈ List.range 16, isUpperHexDigit (toUpperChar (hexDigitLower d)) = true := by
  decide

/-- C8 counterexample: for default color 0x1000000 the rendered default
is `#1000000` — seven hex digits, not the claimed exactly six (length 8,
not 7), because the threshold padding never truncates values above
0xFFFFFF. -/
theorem C8_counterexample :
    colorHexStr 16777216 = ("#1000000").toList
    ∧ (colorHexStr 16777216).length ≠ 7 := by
  have h : colorHexStr 16777216 = ("#1000000").toList := by
    simp +decide [colorHexStr, hexRep, hexDigitLower, toUpperChar]
  exact ⟨h, by rw [h]; decide⟩

/-- C8 (amended): for every call to addColorPicker with default color c
in the 24-bit range 0 ≤ c ≤ 0xFFFFFF, the rendered default value is `#`
followed by exactly six uppercase hex digits, produced by the threshold
zero-padding followed by the hex conversion; 0x2563eb renders as
`#2563EB` and 0x00001 as `#000001`. -/
theorem C8_color_hex_format :
    (∀ c : Nat, c ≤ 0xFFFFFF →
        (colorHexStr c).length = 7
        ∧ (colorHexStr c).take 1 = ['#']
        ∧ ∀ ch ∈ (colorHexStr c).drop 1, isUpperHexDigit ch = true)
    ∧ colorHexStr 0x2563eb = ("#2563EB").toList
    ∧ colorHexStr 1 = ("#000001").toList := by
  have hlen : ∀ c : Nat, c ≤ 0xFFFFFF → (colorHexStr c).length = 7 := by
    intro c hc
    unfold colorHexStr
    simp only [List.length_map, List.length_cons, List.length_append]
    rcases Nat.lt_or_ge c 16 with h1 | h1
    · have e1 : (hexRep c).length = 1 := by
        rw [hexRep, if_pos h1]
        rfl
      simp [show c < 0x100000 by omega, show c < 0x10000 by omega,
        show c < 0x1000 by omega, show c < 0x100 by omega,
        show c < 0x10 by omega, e1]
    · rcases Nat.lt_or_ge c 256 with h2 | h2
      · have e1 : (hexRep c).length = 2 :=
          hexRep_length_interval 1 c (by norm_num; omega) (by norm_num; omega)
        simp [show c < 0x100000 by omega, show c < 0x10000 by omega,
          show c < 0x1000 by omega, show c < 0x100 by omega,
          show ¬ c < 0x10 by omega, e1]
      · rcases Nat.lt_or_ge c 4096 with h3 | h3
        · have e1 : (hexRep c).length = 3 :=
            hexRep_length_interval 2 c (by norm_num; omega) (by norm_num; omega)
          simp [show c < 0x100000 by omega, show c < 0x10000 by omega,
            show c < 0x1000 by omega, show ¬ c < 0x100 by omega,
            show ¬ c < 0x10 by omega, e1]
        · rcases Nat.lt_or_ge c 65536 with h4 | h4
          · have e1 : (hexRep c).length = 4 :=
              hexRep_length_interval 3 c (by norm_num; omega) (by norm_num; omega)
            simp [show c < 0x100000 by omega, show c < 0x10000 by omega,
              show ¬ c < 0x1000 by omega, show ¬ c < 0x100 by omega,
              show ¬ c < 0x10 by omega, e1]
          · rcases Nat.lt_or_ge c 1048576 with h5 | h5
            · have e1 : (hexRep c).length = 5 :=
                hexRep_length_interval 4 c (by norm_num; omega) (by norm_num; omega)
              simp [show c < 0x100000 by omega, show ¬ c < 0x10000 by omega,
                show ¬ c < 0x1000 by omega, show ¬ c < 0x100 by omega,
                show ¬ c < 0x10 by omega, e1]
            · have e1 : (hexRep c).length = 6 :=
                hexRep_length_interval 5 c (by norm_num; omega) (by norm_num; omega)
              simp [show ¬ c < 0x100000 by omega, show ¬ c < 0x10000 by omega,
                show ¬ c < 0x1000 by omega, show ¬ c < 0x100 by omega,
                show ¬ c < 0x10 by omega, e1]
  refine ⟨?_, ?_, ?_⟩
  · intro c hc
    refine ⟨hlen c hc, rfl, ?_⟩
    intro ch hch
    unfold colorHexStr at hch
    simp only [List.map_cons, List.drop_succ_cons, List.drop_zero] at hch
    rw [List.mem_map] at hch
    obtain ⟨x, hx, hxe⟩ := hch
    subst hxe
    rcases List.mem_append.mp hx with h1 | h1
    · have hx0 : x = '0' := by
        simp only [List.mem_append] at h1
        rcases h1 with ((((h | h) | h) | h) | h) <;> (split at h <;> simp_all)
      subst hx0
      decide
    · obtain ⟨d, hd, he⟩ := hexRep_chars c x h1
      subst he
      exact upperHex_of_lower d (List.mem_range.mpr hd)
  · simp +decide [colorHexStr, hexRep, hexDigitLower, toUpperChar]
  · simp +decide [colorHexStr, hexRep, hexDigitLower, toUpperChar]

/-- Witness for C8: the in-range color 0x2563eb renders with length 7, a
leading `#`, and only uppercase hex digits after it. -/
theorem C8_color_hex_format_witness :
    (colorHexStr 2459627).length = 7
    ∧ (colorHexStr 2459627).take 1 = ['#']
    ∧ ∀ ch ∈ (colorHexStr 2459627).drop 1, isUpperHexDigit ch = true :=
  C8_color_hex_format.1 2459627 (by norm_num)

/-- C9: the comma-delimited options string yields at most
MAX_FIELD_OPTIONS (20) rendered options, each a trimmed, non-empty
chunk, rendered in input order (a prefix of the stored slots); the value
emitted for the option at ordinal i is the option's own text when the
return-text flag is set and the ordinal otherwise, and exactly the
option whose ordinal equals the configured default is marked selected;
`Station,Access Point` yields exactly two options in order with ordinal
0 selected first. -/
theorem C9_dropdown_options :
    (∀ s : Str,
        (renderedOptions s).length ≤ MAX_FIELD_OPTIONS
        ∧ (∀ o ∈ renderedOptions s, o ≠ [] ∧ ∃ chunk, o = trimStr chunk)
        ∧ List.IsPrefix (renderedOptions s) (storedOptions s))
    ∧ (∀ (s : Str) (d : Nat) (rt : Bool) (i : Nat) (row : Str × Str × Bool),
        (dropdownRows s d rt)[i]? = some row →
          row.1 = (if rt then row.2.1 else natDecimal i)
          ∧ (d < 256 → (row.2.2 = true ↔ i = d)))
    ∧ dropdownRows (("Station,Access Point").toList) 0 true =
        [(("Station").toList, ("Station").toList, true),
         (("Access Point").toList, ("Access Point").toList, false)] := by
  refine ⟨?_, ?_, ?_⟩
  · intro s
    refine ⟨?_, ?_, List.takeWhile_prefix _⟩
    · have h1 : (renderedOptions s).length ≤ (storedOptions s).length :=
        (List.takeWhile_sublist _).length_le
      have h2 : (storedOptions s).length ≤ MAX_FIELD_OPTIONS :=
        List.length_take_le _ _
      omega
    · intro o ho
      constructor
      · have := List.mem_takeWhile_imp ho
        simpa using this
      · have ho2 : o ∈ storedOptions s := (List.takeWhile_subset _) ho
        have ho3 : o ∈ (splitChunks s).map trimStr :=
          List.take_subset _ _ ho2
        obtain ⟨chunk, _, he⟩ := List.mem_map.mp ho3
        exact ⟨chunk, he.symm⟩
  · intro s d rt i row hrow
    unfold dropdownRows at hrow
    rw [List.getElem?_map, List.getElem?_enum] at hrow
    rcases hopt : (renderedOptions s)[i]? with _ | o
    · rw [hopt] at hrow
      simp at hrow
    · rw [hopt] at hrow
      simp only [Option.map_some'] at hrow
      have hr := (Option.some.inj hrow).symm
      subst hr
      refine ⟨rfl, ?_⟩
      intro hd
      rw [Nat.mod_eq_of_lt hd]
      simp
  · simp +decide [dropdownRows, renderedOptions, storedOptions, splitChunks,
      findCharIdx, trimStr, isWS, MAX_FIELD_OPTIONS, List.enum, List.enumFrom]

/-- Witness for C9: row 0 of the concrete dropdown satisfies the
value and selection rules. -/
theorem C9_dropdown_options_witness :
    (("Station").toList, ("Station").toList, true).1 =
      (if true then (("Station").toList, ("Station").toList, true).2.1
       else natDecimal 0)
    ∧ (0 < 256 →
        (((("Station").toList, ("Station").toList, true).2.2 = true) ↔ 0 = 0)) :=
  C9_dropdown_options.2.1 (("Station,Access Point").toList) 0 true 0
    ((("Station").toList, ("Station").toList, true))
    (by simp +decide [dropdownRows, renderedOptions, storedOptions, splitChunks,
      findCharIdx, trimStr, isWS, MAX_FIELD_OPTIONS, List.enum, List.enumFrom])

lemma handleSubmission_cb (n : Nat) (t : Str) :
    (handleSubmission n false t).responseSent = (handleSubmission n true t).responseSent
    ∧ (handleSubmission n false t).closedConn = (handleSubmission n true t).closedConn
    ∧ (handleSubmission n false t).restarted = (handleSubmission n true t).restarted
    ∧ (handleSubmission n false t).renderedPage = (handleSubmission n true t).renderedPage
    ∧ (handleSubmission n false t).finalOrdinal = (handleSubmission n true t).finalOrdinal
    ∧ (handleSubmission n false t).invocations = [] := by
  unfold handleSubmission
  split
  · exact ⟨rfl, rfl, rfl, rfl, rfl, rfl⟩
  · split
    · exact ⟨rfl, rfl, rfl, rfl, rfl, rfl⟩
    · exact ⟨rfl, rfl, rfl, rfl, rfl, rfl⟩

lemma scanLines_cb : ∀ (lines : List Str) (n : Nat),
    (scanLines n false lines).responseSent = (scanLines n true lines).responseSent
    ∧ (scanLines n false lines).closedConn = (scanLines n true lines).closedConn
    ∧ (scanLines n false lines).restarted = (scanLines n true lines).restarted
    ∧ (scanLines n false lines).renderedPage = (scanLines n true lines).renderedPage
    ∧ (scanLines n false lines).finalOrdinal = (scanLines n true lines).finalOrdinal
    ∧ (scanLines n false lines).invocations = [] := by
  intro lines
  induction lines with
  | nil => intro n; exact ⟨rfl, rfl, rfl, rfl, rfl, rfl⟩
  | cons l rest ih =>
    intro n
    unfold scanLines
    by_cases h1 : trimStr l = []
    · simp [h1, renderOutcome]
    · simp only [h1, if_false]
      by_cases h2 : marker.isPrefixOf (trimStr l) = true
      · simp only [h2, eq_self_iff_true, if_true]
        exact handleSubmission_cb n (trimStr l)
      · simp only [h2, if_false]
        exact ih n

/-- C10: with no value-callback configured, processing is identical on
the wire for any input — same response, close, restart, page-render
behavior, and the ordinal counter still advances to the same final
value — the only difference being that no callback invocation occurs
(the invocation list is empty); in particular a well-formed submission
still sends the success response, closes, restarts, and invokes
nothing. -/
theorem C10_no_callback_same_wire :
    (∀ (lines : List Str) (n : Nat),
        (scanLines n false lines).responseSent =
          (scanLines n true lines).responseSent
        ∧ (scanLines n false lines).closedConn =
            (scanLines n true lines).closedConn
        ∧ (scanLines n false lines).restarted =
            (scanLines n true lines).restarted
        ∧ (scanLines n false lines).renderedPage =
            (scanLines n true lines).renderedPage
        ∧ (scanLines n false lines).finalOrdinal =
            (scanLines n true lines).finalOrdinal
        ∧ (scanLines n false lines).invocations = [])
    ∧ (∀ (l : Str) (rest : List Str) (n : Nat),
        marker.isPrefixOf (trimStr l) = true →
        wellFormedReq (trimStr l) = true →
        (scanLines n false (l :: rest)).responseSent = true
        ∧ (scanLines n false (l :: rest)).closedConn = true
        ∧ (scanLines n false (l :: rest)).restarted = true
        ∧ (scanLines n false (l :: rest)).invocations = []) := by
  refine ⟨scanLines_cb, ?_⟩
  intro l rest n hm hwf
  have ht : ¬ trimStr l = [] := by
    intro he
    rw [he] at hm
    simp [marker, List.isPrefixOf] at hm
  unfold scanLines
  simp only [ht, if_false, hm, if_true]
  unfold wellFormedReq at hwf
  unfold handleSubmission
  split
  next hqs => rw [hqs] at hwf; simp at hwf
  next qs1 hqs =>
    rw [hqs] at hwf
    simp only [] at hwf
    split
    next hqe => rw [hqe] at hwf; simp at hwf
    next qe hqe => exact ⟨rfl, rfl, rfl, rfl⟩

/-- Witness for C10: the concrete well-formed submission with no
callback configured still responds, closes, restarts, and invokes
nothing. -/
theorem C10_no_callback_same_wire_witness :
    (scanLines 2 false [("GET /ajax_inputs?x11=a HTTP/1.1").toList]).responseSent = true
    ∧ (scanLines 2 false
        [("GET /ajax_inputs?x11=a HTTP/1.1").toList]).closedConn = true
    ∧ (scanLines 2 false
        [("GET /ajax_inputs?x11=a HTTP/1.1").toList]).restarted = true
    ∧ (scanLines 2 false
        [("GET /ajax_inputs?x11=a HTTP/1.1").toList]).invocations = [] :=
  C10_no_callback_same_wire.2 (("GET /ajax_inputs?x11=a HTTP/1.1").toList)
    [] 2 (by decide) (by decide)
